import Mathlib

/-!
Verification of the reconciliation engine of the FIC Dashboard
(`scheduler.py`, with the error feed of `app.py`).

The embedding mirrors `fetch_and_update_job_statuses` and its helpers:
timestamps are naturals (seconds), the incident ledger is the list of rows
of the `incidents` table in insertion order, the response cache and the
error state are the module-level dictionaries, and the Last-Refresh Marker
is the `app_state` row written by `update_last_refresh_time_in_db`.
The outside world of one pass (current time, configured URL, the outcome
an HTTP fetch would have, whether the database transaction or the marker
write raises) is a parameter record, so one pass is a pure function on
application state.
-/

namespace FIC

/-- One row of the `incidents` table. -/
structure Incident where
  rowId : Nat
  job_api_id : String
  job_name : String
  status : String
  log_url : Option String
  priority : Option String
  first_detected_at : Nat
  responded_at : Option Nat
  resolved_at : Option Nat
  assigned_to : Option String
  resolution_notes : Option String
  last_api_update : Option Nat
  deriving DecidableEq, Repr

/-- One record of the JSON payload returned by the external status source.
Each field is `none` when the key is absent (`job_data.get(...)`). -/
structure JobData where
  id : Option String
  name : Option String
  status : Option String
  log_url : Option String
  deriving DecidableEq, Repr

/-- Python truthiness of an optional string: `None` and `""` are falsy. -/
def truthyStr : Option String → Bool
  | none => false
  | some s => !(s == "")

/-- Python truthiness of an optional list: `None` and `[]` are falsy. -/
def truthyList : Option (List JobData) → Bool
  | none => false
  | some l => !l.isEmpty

/-- `job_data.get("id")`, already known truthy, as a plain string. -/
def jobId (j : JobData) : String := j.id.getD ""

/-- `job_data.get("name")`, already known truthy, as a plain string. -/
def jobName (j : JobData) : String := j.name.getD ""

/-- `job_data.get("status")`, already known truthy, as a plain string. -/
def jobStatus (j : JobData) : String := j.status.getD ""

/-- The validity test of line 173: all of id, name, status truthy. -/
def validJob (j : JobData) : Bool :=
  truthyStr j.id && truthyStr j.name && truthyStr j.status

/-- Statuses that create or update incidents (line 183). -/
def ACTIVE_STATUSES : List String := ["CRITICAL", "ERROR", "WARNING"]

/-- Statuses that resolve incidents (line 237). -/
def INACTIVE_STATUSES : List String := ["OK", "LOG"]

/-- `CACHE_DURATION_SECONDS = 25`. -/
def CACHE_DURATION_SECONDS : Nat := 25

/-- `grace_period_seconds = 120`. -/
def grace_period_seconds : Nat := 120

/-- The WHERE clause `job_api_id = ? AND resolved_at IS NULL`. -/
def isOpenFor (jid : String) (r : Incident) : Bool :=
  r.job_api_id == jid && r.resolved_at.isNone

/-- The rows selected by `job_api_id = ? AND resolved_at IS NULL`. -/
def openRowsFor (ledger : List Incident) (jid : String) : List Incident :=
  ledger.filter (isOpenFor jid)

/-- All rows with `resolved_at IS NULL`. -/
def openIncidents (ledger : List Incident) : List Incident :=
  ledger.filter (fun r => r.resolved_at.isNone)

/-- An `UPDATE incidents SET ... WHERE job_api_id = ? AND resolved_at IS NULL`. -/
def updOpenRows (f : Incident → Incident) (jid : String) (ledger : List Incident) :
    List Incident :=
  ledger.map (fun r => if isOpenFor jid r then f r else r)

/-- The dictionary `db_active_incidents` (lines 154-161): the open rows,
projected to `(job_api_id, status)` in SELECT order.  Dictionary lookup and
key order are recovered by `snapLookup` and `snapKeys`. -/
def activeSnapshot (ledger : List Incident) : List (String × String) :=
  (ledger.filter (fun r => r.resolved_at.isNone)).map (fun r => (r.job_api_id, r.status))

/-- `db_active_incidents[jid]["status"]`: a Python dict keeps the value of the
last insertion for a key. -/
def snapLookup (snap : List (String × String)) (jid : String) : Option String :=
  (snap.reverse.find? (fun p => p.1 == jid)).map Prod.snd

/-- The key iteration order of `db_active_incidents.items()`: first occurrence
of each key, in insertion order. -/
def snapKeys (snap : List (String × String)) : List String :=
  snap.foldl (fun ks p => if ks.contains p.1 then ks else ks ++ [p.1]) []

/-- Processing of a single payload record (the loop body, lines 165-258).
The accumulator carries the live ledger, the next fresh row id, and
`api_job_ids_seen` (a set, modelled as a duplicate-free list). -/
def processJob (now : Nat) (snap : List (String × String))
    (acc : List Incident × Nat × List String) (j : JobData) :
    List Incident × Nat × List String :=
  let ledger := acc.1
  let nid := acc.2.1
  let seen := acc.2.2
  if !(validJob j) then acc
  else
    let seenNew := if seen.contains (jobId j) then seen else seen ++ [jobId j]
    if ACTIVE_STATUSES.contains (jobStatus j) then
      match snapLookup snap (jobId j) with
      | some prevStatus =>
        if prevStatus ≠ jobStatus j then
          (updOpenRows (fun r =>
              { r with status := jobStatus j, log_url := j.log_url,
                       last_api_update := some now }) (jobId j) ledger,
           nid, seenNew)
        else
          (updOpenRows (fun r =>
              { r with log_url := j.log_url, last_api_update := some now })
              (jobId j) ledger,
           nid, seenNew)
      | none =>
        (ledger ++ [{ rowId := nid, job_api_id := jobId j, job_name := jobName j,
                      status := jobStatus j, log_url := j.log_url, priority := none,
                      first_detected_at := now, responded_at := none,
                      resolved_at := none, assigned_to := none,
                      resolution_notes := none, last_api_update := some now }],
         nid + 1, seenNew)
    else if INACTIVE_STATUSES.contains (jobStatus j) then
      match snapLookup snap (jobId j) with
      | some _ =>
        (updOpenRows (fun r =>
            { r with resolved_at := some now, status := jobStatus j,
                     last_api_update := some now,
                     responded_at := match r.responded_at with
                       | none => some r.first_detected_at
                       | some x => some x }) (jobId j) ledger,
         nid, seenNew)
      | none => (ledger, nid, seenNew)
    else (ledger, nid, seenNew)

/-- The implicit-resolution step for one snapshot key (lines 268-297):
an active incident not seen in the payload is resolved once its
`last_api_update` is more than the grace period old. -/
def graceStep (now : Nat) (seen : List String) (ledger : List Incident)
    (jid : String) : List Incident :=
  if seen.contains jid then ledger
  else
    match ledger.find? (isOpenFor jid) with
    | some row =>
      match row.last_api_update with
      | some t =>
        if now - t > grace_period_seconds then
          updOpenRows (fun r => { r with resolved_at := some now }) jid ledger
        else ledger
      | none => ledger
    | none => ledger

/-- The database phase of one pass (lines 152-297): snapshot the open rows,
fold the payload loop, then the grace loop over the snapshot keys. -/
def processPayload (now : Nat) (jobs : List JobData) (ledger : List Incident)
    (nid : Nat) : List Incident × Nat :=
  let snap := activeSnapshot ledger
  let step1 := jobs.foldl (processJob now snap) (ledger, nid, [])
  ((snapKeys snap).foldl (graceStep now step1.2.2) step1.1, step1.2.1)

/-- `update_last_refresh_time_in_db`: upserts the marker, rolling back (hence
leaving the marker as it was) when its own transaction raises. -/
def update_last_refresh_time_in_db (now : Nat) (raises : Bool)
    (marker : Option Nat) : Option Nat :=
  if raises then marker else some now

/-- The whole mutable state one pass touches: the `incidents` table (plus the
autoincrement counter), `api_data_cache`, `api_error_state`, and the
`app_state` marker row. -/
structure AppState where
  ledger : List Incident
  nextId : Nat
  cacheData : Option (List JobData)
  cacheLastFetched : Option Nat
  has_error : Bool
  last_error : Option String
  last_error_time : Option Nat
  marker : Option Nat
  deriving DecidableEq, Repr

/-- The environment of one pass: the current instant, the configured
`MOCK_API_URL`, what the source would answer if contacted, and whether the
ledger transaction or the marker write raises. -/
structure PassEnv where
  now : Nat
  apiUrl : Option String
  fetch : Except String (List JobData)
  dbRaises : Bool
  markerRaises : Bool
  deriving Repr

/-- The cache test of lines 95-104: payload truthy, fetch instant present,
and age strictly below `CACHE_DURATION_SECONDS`. -/
def cacheHit (env : PassEnv) (st : AppState) : Bool :=
  truthyList st.cacheData &&
    (match st.cacheLastFetched with
     | some t => decide (env.now - t < CACHE_DURATION_SECONDS)
     | none => false)

/-- The ledger transaction plus marker write (lines 147-312): on any raise the
transaction is rolled back whole, and the marker is written only after a
successful commit. -/
def dbPhase (env : PassEnv) (st : AppState) (jobs : List JobData) : AppState :=
  if env.dbRaises then st
  else
    let res := processPayload env.now jobs st.ledger st.nextId
    { st with ledger := res.1, nextId := res.2,
              marker := update_last_refresh_time_in_db env.now env.markerRaises st.marker }

/-- One reconciliation pass (`fetch_and_update_job_statuses`), together with
whether it contacted the external source. -/
def runPass (env : PassEnv) (st : AppState) : AppState × Bool :=
  if cacheHit env st then
    (dbPhase env st (st.cacheData.getD []), false)
  else if !(truthyStr env.apiUrl) then
    ({ st with has_error := true, last_error := some "API_URL not configured",
               last_error_time := some env.now }, false)
  else
    match env.fetch with
    | .error msg =>
      ({ st with has_error := true, last_error := some msg,
                 last_error_time := some env.now }, true)
    | .ok jobs =>
      let st2 := { st with cacheData := some jobs, cacheLastFetched := some env.now,
                           has_error := false, last_error := none }
      if jobs.isEmpty then (st2, true)
      else (dbPhase env st2 jobs, true)

/-- The read-only error feed of `app.py` (`get_api_error_state`). -/
structure ErrorFeed where
  has_error : Bool
  last_error : Option String
  last_error_time : Option Nat
  deriving DecidableEq, Repr

/-- `get_api_error_state` of `app.py`, lines 774-784. -/
def get_api_error_state (st : AppState) : ErrorFeed :=
  { has_error := st.has_error, last_error := st.last_error,
    last_error_time := st.last_error_time }

/-! ### Concrete fixtures for witnesses and counterexamples -/

/-- A payload record reporting job `j1` CRITICAL. -/
def jobC : JobData :=
  { id := some "j1", name := some "Backup", status := some "CRITICAL",
    log_url := some "u" }

/-- A payload record reporting job `j1` ERROR. -/
def jobE : JobData :=
  { id := some "j1", name := some "Backup", status := some "ERROR",
    log_url := some "v" }

/-- A payload record reporting job `j1` OK. -/
def jobOK : JobData :=
  { id := some "j1", name := some "Backup", status := some "OK",
    log_url := some "u" }

/-- A payload record reporting job `j2` OK. -/
def jobOther : JobData :=
  { id := some "j2", name := some "Other", status := some "OK", log_url := none }

/-- A payload record for `j1` with a status string outside both classes. -/
def jobUnknown : JobData :=
  { id := some "j1", name := some "Backup", status := some "UNKNOWN",
    log_url := none }

/-- The empty application state. -/
def st0 : AppState :=
  { ledger := [], nextId := 1, cacheData := none, cacheLastFetched := none,
    has_error := false, last_error := none, last_error_time := none,
    marker := none }

/-- An open, never-responded incident row for job `j1`, first detected and
last seen at instant 0. -/
def i0 : Incident :=
  { rowId := 1, job_api_id := "j1", job_name := "Backup", status := "CRITICAL",
    log_url := some "u", priority := none, first_detected_at := 0,
    responded_at := none, resolved_at := none, assigned_to := none,
    resolution_notes := none, last_api_update := some 0 }

/-- A state carrying a stale error feed from a failure at instant 5. -/
def stErr : AppState :=
  { st0 with has_error := true, last_error := some "boom",
             last_error_time := some 5 }

/-- A state whose cache holds an empty payload fetched at instant 99. -/
def stEmptyCache : AppState :=
  { st0 with cacheData := some [], cacheLastFetched := some 99 }

/-- A state whose cache holds a one-record payload fetched at instant 90. -/
def stCache : AppState :=
  { st0 with cacheData := some [jobC], cacheLastFetched := some 90 }

/-- A pass at instant 100 whose fetch would return `j1` CRITICAL twice. -/
def envDup : PassEnv :=
  { now := 100, apiUrl := some "u", fetch := Except.ok [jobC, jobC],
    dbRaises := false, markerRaises := false }

/-- A pass at instant 7 whose fetch fails with a transport error. -/
def envErr : PassEnv :=
  { now := 7, apiUrl := some "u", fetch := Except.error "boom",
    dbRaises := false, markerRaises := false }

/-- A pass at instant 100 whose fetch returns an empty job list. -/
def envOkEmpty : PassEnv :=
  { now := 100, apiUrl := some "u", fetch := Except.ok [],
    dbRaises := false, markerRaises := false }

/-- A pass at instant 50 whose ledger transaction raises. -/
def envRaise : PassEnv :=
  { now := 50, apiUrl := some "u", fetch := Except.ok [jobC],
    dbRaises := true, markerRaises := false }

end FIC

namespace FIC

/-! ### Generic list lemmas -/

lemma find_eq_head_filter {α : Type} (p : α → Bool) (l : List α) :
    l.find? p = (l.filter p).head? := by
  induction l with
  | nil => rfl
  | cons a tl ih =>
    by_cases h : p a = true
    · rw [List.find?_cons_of_pos _ h, List.filter_cons_of_pos h, List.head?_cons]
    · rw [List.find?_cons_of_neg _ h, List.filter_cons_of_neg h, ih]

lemma filter_map_invariant {α : Type} (p : α → Bool) (g : α → α)
    (h1 : ∀ r, p (g r) = p r) (h2 : ∀ r, p r = true → g r = r) (l : List α) :
    (l.map g).filter p = l.filter p := by
  induction l with
  | nil => rfl
  | cons a tl ih =>
    rw [List.map_cons]
    by_cases h : p a = true
    · rw [List.filter_cons_of_pos (by rw [h1]; exact h), List.filter_cons_of_pos h,
        h2 a h, ih]
    · rw [List.filter_cons_of_neg (by rw [h1]; exact h), List.filter_cons_of_neg h, ih]

lemma filter_map_none {α : Type} (p : α → Bool) (g : α → α)
    (h : ∀ r, p (g r) = false) (l : List α) :
    (l.map g).filter p = [] := by
  induction l with
  | nil => rfl
  | cons a tl ih =>
    rw [List.map_cons, List.filter_cons_of_neg (by rw [h]; simp), ih]

/-! ### Frame lemmas for the ledger operations -/

lemma isOpenFor_eq_jid {jid : String} {r : Incident} (h : isOpenFor jid r = true) :
    r.job_api_id = jid := by
  have := (Bool.and_eq_true _ _).mp h
  exact beq_iff_eq.mp this.1

lemma isOpenFor_isNone {jid : String} {r : Incident} (h : isOpenFor jid r = true) :
    r.resolved_at = none := by
  have := (Bool.and_eq_true _ _).mp h
  exact Option.isNone_iff_eq_none.mp this.2

/-- `updOpenRows` on one external id leaves the open set of any other id alone,
provided the update does not rename rows. -/
lemma openRowsFor_updOpenRows_ne (f : Incident → Incident) (k jid : String)
    (hf : ∀ r, (f r).job_api_id = r.job_api_id) (hkj : k ≠ jid)
    (l : List Incident) :
    openRowsFor (updOpenRows f k l) jid = openRowsFor l jid := by
  unfold openRowsFor updOpenRows
  refine filter_map_invariant _ _ (fun r => ?_) (fun r hr => ?_) l
  · by_cases hk : isOpenFor k r = true
    · have hjk : r.job_api_id = k := isOpenFor_eq_jid hk
      have hne : (k == jid) = false := beq_eq_false_iff_ne.mpr hkj
      rw [if_pos hk]
      have hl : isOpenFor jid (f r) = false := by
        unfold isOpenFor
        rw [hf r, hjk, hne, Bool.false_and]
      have hr : isOpenFor jid r = false := by
        unfold isOpenFor
        rw [hjk, hne, Bool.false_and]
      rw [hl, hr]
    · rw [if_neg hk]
  · have hne : (jid == k) = false := beq_eq_false_iff_ne.mpr (fun h => hkj h.symm)
    have : isOpenFor k r = false := by
      unfold isOpenFor
      rw [isOpenFor_eq_jid hr, hne, Bool.false_and]
    rw [this]
    simp

/-- Resolving every open row of an id empties the open set of that id. -/
lemma openRowsFor_resolve_self (now : Nat) (jid : String) (l : List Incident) :
    openRowsFor (updOpenRows (fun r => { r with resolved_at := some now }) jid l) jid
      = [] := by
  unfold openRowsFor updOpenRows
  refine filter_map_none _ _ (fun r => ?_) l
  by_cases hk : isOpenFor jid r = true
  · rw [if_pos hk]
    unfold isOpenFor
    simp
  · rw [if_neg hk]
    exact Bool.not_eq_true _ ▸ (Bool.eq_false_iff.mpr hk)

/-- Appending a row of another id leaves the open set of any other id alone. -/
lemma openRowsFor_append_ne (l : List Incident) (x : Incident) (jid : String)
    (hx : isOpenFor jid x = false) :
    openRowsFor (l ++ [x]) jid = openRowsFor l jid := by
  unfold openRowsFor
  rw [List.filter_append]
  simp [List.filter_cons, hx]

/-- A row untouched by the WHERE clause survives `updOpenRows` as a member. -/
lemma mem_updOpenRows_of_closed (f : Incident → Incident) (k : String)
    {r : Incident} (hr : isOpenFor k r = false) {l : List Incident} (h : r ∈ l) :
    r ∈ updOpenRows f k l := by
  unfold updOpenRows
  have h2 : (fun x => if isOpenFor k x then f x else x) r = r := by simp [hr]
  exact h2 ▸ List.mem_map_of_mem (fun x => if isOpenFor k x then f x else x) h

end FIC

namespace FIC

lemma processJob_openRowsFor_ne (now : Nat) (snap : List (String × String))
    (acc : List Incident × Nat × List String) (j : JobData) (jid : String)
    (h : validJob j = true → jobId j ≠ jid) :
    openRowsFor (processJob now snap acc j).1 jid = openRowsFor acc.1 jid := by
  by_cases hv : validJob j = true
  · have hne := h hv
    unfold processJob
    simp only [hv, Bool.not_true, Bool.false_eq_true, if_false]
    by_cases ha : ACTIVE_STATUSES.contains (jobStatus j) = true
    · rw [if_pos ha]
      cases hs : snapLookup snap (jobId j) with
      | some prevStatus =>
        dsimp only
        by_cases hst : prevStatus ≠ jobStatus j
        · rw [if_pos hst]
          refine openRowsFor_updOpenRows_ne _ _ _ ?_ hne _
          intro r
          rfl
        · rw [if_neg hst]
          refine openRowsFor_updOpenRows_ne _ _ _ ?_ hne _
          intro r
          rfl
      | none =>
        dsimp only
        refine openRowsFor_append_ne _ _ _ ?_
        unfold isOpenFor
        simp [beq_eq_false_iff_ne.mpr hne]
    · rw [if_neg ha]
      by_cases hi : INACTIVE_STATUSES.contains (jobStatus j) = true
      · rw [if_pos hi]
        cases hs : snapLookup snap (jobId j) with
        | some prevStatus =>
          dsimp only
          refine openRowsFor_updOpenRows_ne _ _ _ ?_ hne _
          intro r
          rfl
        | none => rfl
      · rw [if_neg hi]
  · simp [processJob, hv]


/-- The ids recorded as seen come from valid payload records (or were already
in the accumulator). -/
lemma processJob_seen_mem (now : Nat) (snap : List (String × String))
    (acc : List Incident × Nat × List String) (j : JobData) (x : String)
    (h : x ∈ (processJob now snap acc j).2.2) :
    x ∈ acc.2.2 ∨ (validJob j = true ∧ jobId j = x) := by
  by_cases hv : validJob j = true
  · have hsub : ∀ y, y ∈ (if acc.2.2.contains (jobId j) then acc.2.2
        else acc.2.2 ++ [jobId j]) → y ∈ acc.2.2 ∨ jobId j = y := by
      intro y hy
      by_cases hc : acc.2.2.contains (jobId j) = true
      · rw [if_pos hc] at hy
        exact Or.inl hy
      · rw [if_neg hc] at hy
        rcases List.mem_append.mp hy with h1 | h1
        · exact Or.inl h1
        · exact Or.inr (List.mem_singleton.mp h1).symm
    have hseen : (processJob now snap acc j).2.2 =
        (if acc.2.2.contains (jobId j) then acc.2.2 else acc.2.2 ++ [jobId j]) := by
      unfold processJob
      simp only [hv, Bool.not_true, Bool.false_eq_true, if_false]
      by_cases ha : ACTIVE_STATUSES.contains (jobStatus j) = true
      · rw [if_pos ha]
        cases hs : snapLookup snap (jobId j) with
        | some prevStatus =>
          dsimp only
          by_cases hst : prevStatus ≠ jobStatus j
          · rw [if_pos hst]
          · rw [if_neg hst]
        | none => rfl
      · rw [if_neg ha]
        by_cases hi : INACTIVE_STATUSES.contains (jobStatus j) = true
        · rw [if_pos hi]
          cases hs : snapLookup snap (jobId j) with
          | some prevStatus => rfl
          | none => rfl
        · rw [if_neg hi]
    rw [hseen] at h
    rcases hsub x h with h1 | h1
    · exact Or.inl h1
    · exact Or.inr ⟨hv, h1⟩
  · left
    unfold processJob at h
    simp only [Bool.not_eq_true _ ▸ Bool.eq_false_iff.mpr hv, Bool.not_false, if_true] at h
    exact h

/-- Fold form of `processJob_openRowsFor_ne`. -/
lemma foldl_processJob_openRowsFor (now : Nat) (snap : List (String × String))
    (jobs : List JobData) (jid : String)
    (habsent : ∀ j ∈ jobs, validJob j = true → jobId j ≠ jid) :
    ∀ acc, openRowsFor (jobs.foldl (processJob now snap) acc).1 jid
      = openRowsFor acc.1 jid := by
  induction jobs with
  | nil => intro acc; rfl
  | cons j tl ih =>
    intro acc
    rw [List.foldl_cons]
    rw [ih (fun k hk => habsent k (List.mem_cons_of_mem _ hk))]
    exact processJob_openRowsFor_ne now snap acc j jid (habsent j (List.mem_cons_self _ _))

/-- Fold form of `processJob_seen_mem`. -/
lemma foldl_processJob_seen (now : Nat) (snap : List (String × String))
    (jobs : List JobData) (x : String) :
    ∀ acc, x ∈ (jobs.foldl (processJob now snap) acc).2.2 →
      x ∈ acc.2.2 ∨ ∃ j ∈ jobs, validJob j = true ∧ jobId j = x := by
  induction jobs with
  | nil => intro acc h; exact Or.inl h
  | cons j tl ih =>
    intro acc h
    rw [List.foldl_cons] at h
    rcases ih _ h with h1 | ⟨k, hk, hk2⟩
    · rcases processJob_seen_mem now snap acc j x h1 with h2 | h2
      · exact Or.inl h2
      · exact Or.inr ⟨j, List.mem_cons_self _ _, h2⟩
    · exact Or.inr ⟨k, List.mem_cons_of_mem _ hk, hk2⟩


/-! ### Preservation through the grace loop -/

/-- A grace step for another external id leaves the open set of `jid` alone. -/
lemma graceStep_openRowsFor_ne (now : Nat) (seen : List String)
    (l : List Incident) (k jid : String) (hkj : k ≠ jid) :
    openRowsFor (graceStep now seen l k) jid = openRowsFor l jid := by
  unfold graceStep
  by_cases hc : seen.contains k = true
  · rw [if_pos hc]
  · rw [if_neg hc]
    cases hf : l.find? (isOpenFor k) with
    | some row =>
      dsimp only
      cases hl : row.last_api_update with
      | some t =>
        dsimp only
        by_cases hg : now - t > grace_period_seconds
        · rw [if_pos hg]
          refine openRowsFor_updOpenRows_ne _ _ _ ?_ hkj _
          intro r
          rfl
        · rw [if_neg hg]
      | none => rfl
    | none => rfl

/-- Fold form of `graceStep_openRowsFor_ne`. -/
lemma foldl_graceStep_openRowsFor (now : Nat) (seen : List String)
    (ks : List String) (jid : String) (hks : ∀ k ∈ ks, k ≠ jid) :
    ∀ l, openRowsFor (ks.foldl (graceStep now seen) l) jid = openRowsFor l jid := by
  induction ks with
  | nil => intro l; rfl
  | cons k tl ih =>
    intro l
    rw [List.foldl_cons, ih (fun x hx => hks x (List.mem_cons_of_mem _ hx))]
    exact graceStep_openRowsFor_ne now seen l k jid (hks k (List.mem_cons_self _ _))

/-- A resolved row survives any grace step as a member. -/
lemma mem_graceStep_of_resolved (now : Nat) (seen : List String)
    {l : List Incident} {r : Incident} (hres : r.resolved_at.isNone = false)
    (h : r ∈ l) (k : String) :
    r ∈ graceStep now seen l k := by
  have hro : isOpenFor k r = false := by
    unfold isOpenFor
    rw [hres, Bool.and_false]
  unfold graceStep
  by_cases hc : seen.contains k = true
  · rw [if_pos hc]; exact h
  · rw [if_neg hc]
    cases hf : l.find? (isOpenFor k) with
    | some row =>
      dsimp only
      cases hl : row.last_api_update with
      | some t =>
        dsimp only
        by_cases hg : now - t > grace_period_seconds
        · rw [if_pos hg]
          exact mem_updOpenRows_of_closed _ _ hro h
        · rw [if_neg hg]; exact h
      | none => exact h
    | none => exact h

/-- Fold form of `mem_graceStep_of_resolved`. -/
lemma mem_foldl_graceStep_of_resolved (now : Nat) (seen : List String)
    (ks : List String) {r : Incident} (hres : r.resolved_at.isNone = false) :
    ∀ l, r ∈ l → r ∈ ks.foldl (graceStep now seen) l := by
  induction ks with
  | nil => intro l h; exact h
  | cons k tl ih =>
    intro l h
    rw [List.foldl_cons]
    exact ih _ (mem_graceStep_of_resolved now seen hres h k)

/-! ### The snapshot key list -/

lemma snapKeys_aux_mem (s : List (String × String)) :
    ∀ acc x, (x ∈ s.foldl (fun ks p => if ks.contains p.1 then ks else ks ++ [p.1]) acc
      ↔ x ∈ acc ∨ ∃ p ∈ s, p.1 = x) := by
  induction s with
  | nil => intro acc x; simp
  | cons q tl ih =>
    intro acc x
    rw [List.foldl_cons]
    constructor
    · intro h
      rcases (ih _ x).mp h with h1 | ⟨p, hp, hp2⟩
      · by_cases hc : acc.contains q.1 = true
        · rw [if_pos hc] at h1
          exact Or.inl h1
        · rw [if_neg hc] at h1
          rcases List.mem_append.mp h1 with h2 | h2
          · exact Or.inl h2
          · exact Or.inr ⟨q, List.mem_cons_self _ _, (List.mem_singleton.mp h2).symm⟩
      · exact Or.inr ⟨p, List.mem_cons_of_mem _ hp, hp2⟩
    · intro h
      apply (ih _ x).mpr
      rcases h with h1 | ⟨p, hp, hp2⟩
      · left
        by_cases hc : acc.contains q.1 = true
        · rw [if_pos hc]; exact h1
        · rw [if_neg hc]; exact List.mem_append_left _ h1
      · rcases List.mem_cons.mp hp with rfl | hp3
        · left
          by_cases hc : acc.contains p.1 = true
          · rw [if_pos hc]
            rw [← hp2]
            exact List.mem_of_elem_eq_true hc
          · rw [if_neg hc]
            exact List.mem_append_right _ (hp2 ▸ List.mem_singleton_self _)
        · exact Or.inr ⟨p, hp3, hp2⟩

/-- Membership in the dict key order is membership among the pair keys. -/
lemma mem_snapKeys_iff (s : List (String × String)) (x : String) :
    x ∈ snapKeys s ↔ ∃ p ∈ s, p.1 = x := by
  unfold snapKeys
  rw [snapKeys_aux_mem]
  simp

lemma snapKeys_aux_nodup (s : List (String × String)) :
    ∀ acc : List String, acc.Nodup →
      (s.foldl (fun ks p => if ks.contains p.1 then ks else ks ++ [p.1]) acc).Nodup := by
  induction s with
  | nil => intro acc h; exact h
  | cons q tl ih =>
    intro acc h
    rw [List.foldl_cons]
    apply ih
    by_cases hc : acc.contains q.1 = true
    · rw [if_pos hc]; exact h
    · rw [if_neg hc]
      have hq : q.1 ∉ acc := fun hm => hc (List.elem_eq_true_of_mem hm)
      refine List.Nodup.append h (List.nodup_singleton _) ?_
      intro a ha hb
      rw [List.mem_singleton.mp hb] at ha
      exact hq ha

/-- The dict key order never repeats a key. -/
lemma snapKeys_nodup (s : List (String × String)) : (snapKeys s).Nodup :=
  snapKeys_aux_nodup s [] List.nodup_nil


/-- The grace step for the id of the single open row `i`, not seen in the
payload: resolve when the grace period is exceeded, else do nothing. -/
lemma graceStep_self (now : Nat) (seen : List String) (l : List Incident)
    (i : Incident) (t : Nat)
    (hopen : openRowsFor l i.job_api_id = [i])
    (hlast : i.last_api_update = some t)
    (hseen : seen.contains i.job_api_id = false) :
    graceStep now seen l i.job_api_id =
      (if now - t > grace_period_seconds then
        updOpenRows (fun r => { r with resolved_at := some now }) i.job_api_id l
      else l) := by
  have hfind : l.find? (isOpenFor i.job_api_id) = some i := by
    rw [find_eq_head_filter]
    have h1 : l.filter (isOpenFor i.job_api_id) = [i] := hopen
    rw [h1, List.head?_cons]
  unfold graceStep
  rw [if_neg (by rw [hseen]; exact Bool.false_ne_true), hfind]
  dsimp only
  rw [hlast]

/-- C4: for every open incident whose external job id does not appear in the
fetched payload, the incident is resolved (resolved timestamp = now, every
other field, the status included, as last reported) when `now` minus its
last-upstream-update exceeds the 120-second grace period, and is left
entirely untouched when the elapsed time is within the grace period. -/
theorem grace_period_resolution (now : Nat) (jobs : List JobData)
    (ledger : List Incident) (nid : Nat) (i : Incident) (t : Nat)
    (hopen : openRowsFor ledger i.job_api_id = [i])
    (hlast : i.last_api_update = some t)
    (habsent : ∀ j ∈ jobs, validJob j = true → jobId j ≠ i.job_api_id) :
    (now - t > grace_period_seconds →
      openRowsFor (processPayload now jobs ledger nid).1 i.job_api_id = [] ∧
      { i with resolved_at := some now } ∈ (processPayload now jobs ledger nid).1) ∧
    (¬(now - t > grace_period_seconds) →
      openRowsFor (processPayload now jobs ledger nid).1 i.job_api_id = [i]) := by
  have hP : (processPayload now jobs ledger nid).1
      = (snapKeys (activeSnapshot ledger)).foldl
          (graceStep now
            (jobs.foldl (processJob now (activeSnapshot ledger)) (ledger, nid, [])).2.2)
          (jobs.foldl (processJob now (activeSnapshot ledger)) (ledger, nid, [])).1 := rfl
  have hmemf : i ∈ ledger.filter (isOpenFor i.job_api_id) := by
    have h1 : ledger.filter (isOpenFor i.job_api_id) = [i] := hopen
    rw [h1]
    exact List.mem_singleton_self _
  have hmeml : i ∈ ledger := (List.mem_filter.mp hmemf).1
  have hio : isOpenFor i.job_api_id i = true := (List.mem_filter.mp hmemf).2
  have hresn : i.resolved_at.isNone = true := ((Bool.and_eq_true _ _).mp hio).2
  have hopen1 : openRowsFor
      (jobs.foldl (processJob now (activeSnapshot ledger)) (ledger, nid, [])).1
      i.job_api_id = [i] := by
    rw [foldl_processJob_openRowsFor now (activeSnapshot ledger) jobs i.job_api_id habsent]
    exact hopen
  have hseen1 : (jobs.foldl (processJob now (activeSnapshot ledger))
      (ledger, nid, [])).2.2.contains i.job_api_id = false := by
    by_contra hc
    have hc1 : (jobs.foldl (processJob now (activeSnapshot ledger))
        (ledger, nid, [])).2.2.contains i.job_api_id = true := by
      revert hc
      cases (jobs.foldl (processJob now (activeSnapshot ledger))
        (ledger, nid, [])).2.2.contains i.job_api_id <;> simp
    have hc2 : i.job_api_id ∈ (jobs.foldl (processJob now (activeSnapshot ledger))
        (ledger, nid, [])).2.2 := List.mem_of_elem_eq_true hc1
    rcases foldl_processJob_seen now (activeSnapshot ledger) jobs i.job_api_id _ hc2 with
      h1 | ⟨j, hj, hv, hid⟩
    · simp at h1
    · exact habsent j hj hv hid
  have hmemkeys : i.job_api_id ∈ snapKeys (activeSnapshot ledger) := by
    rw [mem_snapKeys_iff]
    refine ⟨(i.job_api_id, i.status), ?_, rfl⟩
    unfold activeSnapshot
    exact List.mem_map_of_mem _ (List.mem_filter.mpr ⟨hmeml, hresn⟩)
  obtain ⟨ks1, ks2, hsplit⟩ := List.append_of_mem hmemkeys
  have hnodup := snapKeys_nodup (activeSnapshot ledger)
  rw [hsplit] at hnodup
  obtain ⟨hnd1, hnd2, hdisj⟩ := List.nodup_append.mp hnodup
  have hks1 : ∀ k ∈ ks1, k ≠ i.job_api_id := by
    intro k hk heq
    exact hdisj hk (heq ▸ List.mem_cons_self _ _)
  have hks2 : ∀ k ∈ ks2, k ≠ i.job_api_id := by
    intro k hk heq
    have := (List.nodup_cons.mp hnd2).1
    exact this (heq ▸ hk)
  rw [hP, hsplit, List.foldl_append, List.foldl_cons]
  have hopen2 : openRowsFor
      (ks1.foldl (graceStep now (jobs.foldl (processJob now (activeSnapshot ledger))
        (ledger, nid, [])).2.2)
        (jobs.foldl (processJob now (activeSnapshot ledger)) (ledger, nid, [])).1)
      i.job_api_id = [i] := by
    rw [foldl_graceStep_openRowsFor now _ ks1 i.job_api_id hks1]
    exact hopen1
  have hmem2 : i ∈ ks1.foldl (graceStep now (jobs.foldl (processJob now
      (activeSnapshot ledger)) (ledger, nid, [])).2.2)
      (jobs.foldl (processJob now (activeSnapshot ledger)) (ledger, nid, [])).1 := by
    have h1 := hopen2
    unfold openRowsFor at h1
    have h2 : i ∈ (ks1.foldl (graceStep now (jobs.foldl (processJob now
        (activeSnapshot ledger)) (ledger, nid, [])).2.2)
        (jobs.foldl (processJob now (activeSnapshot ledger)) (ledger, nid, [])).1).filter
        (isOpenFor i.job_api_id) := by
      rw [h1]
      exact List.mem_singleton_self _
    exact (List.mem_filter.mp h2).1
  have hgs := graceStep_self now _ _ i t hopen2 hlast hseen1
  rw [hgs]
  constructor
  · intro hgt
    rw [if_pos hgt]
    constructor
    · rw [foldl_graceStep_openRowsFor now _ ks2 i.job_api_id hks2]
      exact openRowsFor_resolve_self now i.job_api_id _
    · have hmap : ({ i with resolved_at := some now } : Incident) ∈
          updOpenRows (fun r => { r with resolved_at := some now }) i.job_api_id
            (ks1.foldl (graceStep now (jobs.foldl (processJob now
              (activeSnapshot ledger)) (ledger, nid, [])).2.2)
              (jobs.foldl (processJob now (activeSnapshot ledger)) (ledger, nid, [])).1) := by
        unfold updOpenRows
        have h2 : (fun x => if isOpenFor i.job_api_id x then
            ({ x with resolved_at := some now } : Incident) else x) i
            = { i with resolved_at := some now } := by
          dsimp only
          rw [if_pos hio]
        exact h2 ▸ List.mem_map_of_mem _ hmem2
      refine mem_foldl_graceStep_of_resolved now _ ks2 ?_ _ hmap
      rfl
  · intro hle
    rw [if_neg hle]
    rw [foldl_graceStep_openRowsFor now _ ks2 i.job_api_id hks2]
    exact hopen2

end FIC

namespace FIC

/-! ### Pointwise reductions of the loop body -/

lemma updOpenRows_get (f : Incident → Incident) (jid : String) (l : List Incident)
    (idx : Nat) (r : Incident) (h : l.get? idx = some r) :
    (updOpenRows f jid l).get? idx = some (if isOpenFor jid r then f r else r) := by
  unfold updOpenRows
  rw [List.get?_map, h]
  rfl

lemma tuple_if_comm {A : Type} (c : Prop) [Decidable c] (a b : A) (n : Nat)
    (sn : List String) :
    (if c then (a, n, sn) else (b, n, sn)) = ((if c then a else b), n, sn) := by
  by_cases h : c
  · rw [if_pos h, if_pos h]
  · rw [if_neg h, if_neg h]

lemma inactive_not_active {s : String} (h : INACTIVE_STATUSES.contains s = true) :
    ACTIVE_STATUSES.contains s = false := by
  have hmem : s ∈ INACTIVE_STATUSES := List.mem_of_elem_eq_true h
  simp only [INACTIVE_STATUSES, List.mem_cons, List.not_mem_nil, or_false] at hmem
  rcases hmem with rfl | rfl <;> decide

/-- A grace step either keeps a row exactly or only fills its resolved
timestamp. -/
lemma graceStep_get (now : Nat) (sn : List String) (l : List Incident)
    (k : String) (idx : Nat) (r : Incident) (h : l.get? idx = some r) :
    (graceStep now sn l k).get? idx = some r ∨
    (graceStep now sn l k).get? idx = some { r with resolved_at := some now } := by
  unfold graceStep
  by_cases hc : sn.contains k = true
  · rw [if_pos hc]
    exact Or.inl h
  · rw [if_neg hc]
    cases hf : l.find? (isOpenFor k) with
    | some row =>
      dsimp only
      cases hl : row.last_api_update with
      | some t =>
        dsimp only
        by_cases hg : now - t > grace_period_seconds
        · rw [if_pos hg, updOpenRows_get _ _ _ _ _ h]
          by_cases ho : isOpenFor k r = true
          · rw [if_pos ho]
            exact Or.inr rfl
          · rw [if_neg ho]
            exact Or.inl rfl
        · rw [if_neg hg]
          exact Or.inl h
      | none => exact Or.inl h
    | none => exact Or.inl h

/-- The loop body on a valid active record whose id has an open incident:
an in-place update of the open rows of that id, no insertion. -/
lemma processJob_active_hit (now : Nat) (snap : List (String × String))
    (ledger : List Incident) (nid : Nat) (seen : List String) (j : JobData)
    (s : String) (hvalid : validJob j = true)
    (hactive : ACTIVE_STATUSES.contains (jobStatus j) = true)
    (hsnap : snapLookup snap (jobId j) = some s) :
    processJob now snap (ledger, nid, seen) j =
      ((if s ≠ jobStatus j then
          updOpenRows (fun r =>
            { r with status := jobStatus j, log_url := j.log_url,
                     last_api_update := some now }) (jobId j) ledger
        else
          updOpenRows (fun r =>
            { r with log_url := j.log_url, last_api_update := some now })
            (jobId j) ledger),
       nid,
       if seen.contains (jobId j) then seen else seen ++ [jobId j]) := by
  unfold processJob
  simp only [hvalid, Bool.not_true, Bool.false_eq_true, if_false]
  rw [if_pos hactive, hsnap]
  dsimp only
  exact tuple_if_comm _ _ _ _ _

/-- The loop body on a valid inactive record whose id has an open incident:
resolve the open rows of that id in place. -/
lemma processJob_inactive_hit (now : Nat) (snap : List (String × String))
    (ledger : List Incident) (nid : Nat) (seen : List String) (j : JobData)
    (s : String) (hvalid : validJob j = true)
    (hinactive : INACTIVE_STATUSES.contains (jobStatus j) = true)
    (hsnap : snapLookup snap (jobId j) = some s) :
    processJob now snap (ledger, nid, seen) j =
      (updOpenRows (fun r =>
          { r with resolved_at := some now, status := jobStatus j,
                   last_api_update := some now,
                   responded_at := match r.responded_at with
                     | none => some r.first_detected_at
                     | some x => some x }) (jobId j) ledger,
       nid,
       if seen.contains (jobId j) then seen else seen ++ [jobId j]) := by
  have hact : ¬(ACTIVE_STATUSES.contains (jobStatus j) = true) := by
    rw [inactive_not_active hinactive]
    exact Bool.false_ne_true
  unfold processJob
  simp only [hvalid, Bool.not_true, Bool.false_eq_true, if_false]
  rw [if_neg hact, if_pos hinactive, hsnap]

end FIC

namespace FIC

/-! ### Claim theorems on a whole pass -/

/-- C1 (failing input): a single pass over a payload that reports the same
external job id `j1` twice with an active status, starting from an empty
ledger, leaves two rows for `j1` that are both open — the code checks only
the start-of-pass snapshot before inserting, so the second record inserts
again. -/
theorem duplicate_payload_double_open :
    (openRowsFor (runPass envDup st0).1.ledger "j1").length = 2 := by decide

/-- C2: when the fetch path is taken and the fetch fails (missing URL, or a
transport error or timeout), the pass aborts before any ledger access: the
ledger (hence its open-incident set) and the marker are exactly unchanged,
and the error state is set with the flag, a message, and the current time. -/
theorem fetch_failure_frame (env : PassEnv) (st : AppState)
    (hmiss : cacheHit env st = false)
    (hfail : truthyStr env.apiUrl = false ∨ ∃ m, env.fetch = Except.error m) :
    (runPass env st).1.ledger = st.ledger ∧
    openIncidents (runPass env st).1.ledger = openIncidents st.ledger ∧
    (runPass env st).1.marker = st.marker ∧
    (runPass env st).1.has_error = true ∧
    (runPass env st).1.last_error ≠ none ∧
    (runPass env st).1.last_error_time = some env.now := by
  have hnc : ¬(cacheHit env st = true) := by
    rw [hmiss]
    exact Bool.false_ne_true
  rcases hfail with hurl | ⟨m, hm⟩
  · unfold runPass
    rw [if_neg hnc, if_pos (by rw [hurl]; rfl)]
    exact ⟨rfl, rfl, rfl, rfl, Option.some_ne_none _, rfl⟩
  · by_cases hurl : truthyStr env.apiUrl = true
    · unfold runPass
      rw [if_neg hnc, if_neg (by rw [hurl]; simp), hm]
      exact ⟨rfl, rfl, rfl, rfl, Option.some_ne_none _, rfl⟩
    · have hurl2 : truthyStr env.apiUrl = false := by
        revert hurl
        cases truthyStr env.apiUrl <;> simp
      unfold runPass
      rw [if_neg hnc, if_pos (by rw [hurl2]; rfl)]
      exact ⟨rfl, rfl, rfl, rfl, Option.some_ne_none _, rfl⟩

/-- C2 witness: a concrete transport failure at instant 7 on the empty
state. -/
theorem fetch_failure_frame_witness :
    (runPass envErr st0).1.ledger = st0.ledger ∧
    openIncidents (runPass envErr st0).1.ledger = openIncidents st0.ledger ∧
    (runPass envErr st0).1.marker = st0.marker ∧
    (runPass envErr st0).1.has_error = true ∧
    (runPass envErr st0).1.last_error ≠ none ∧
    (runPass envErr st0).1.last_error_time = some envErr.now :=
  fetch_failure_frame envErr st0 rfl (Or.inr ⟨"boom", rfl⟩)

/-- C3: the ledger mutations of one pass commit as one atomic unit: if the
transaction raises, the ledger and the marker end exactly as before the pass
(full rollback, no partial application), and whenever the marker changed at
all, the transaction committed without raising and the marker now holds the
instant of the pass. -/
theorem pass_atomic_commit (env : PassEnv) (st : AppState) :
    (env.dbRaises = true →
      (runPass env st).1.ledger = st.ledger ∧
      (runPass env st).1.marker = st.marker) ∧
    ((runPass env st).1.marker ≠ st.marker →
      env.dbRaises = false ∧ env.markerRaises = false ∧
      (runPass env st).1.marker = some env.now) := by
  have hdb : ∀ st2 : AppState, st2.ledger = st.ledger → st2.marker = st.marker →
      ∀ jobs,
      (env.dbRaises = true →
        (dbPhase env st2 jobs).ledger = st.ledger ∧
        (dbPhase env st2 jobs).marker = st.marker) ∧
      ((dbPhase env st2 jobs).marker ≠ st.marker →
        env.dbRaises = false ∧ env.markerRaises = false ∧
        (dbPhase env st2 jobs).marker = some env.now) := by
    intro st2 hl hmk jobs
    unfold dbPhase
    by_cases hd : env.dbRaises = true
    · rw [if_pos hd]
      exact ⟨fun _ => ⟨hl, hmk⟩, fun hm => absurd hmk hm⟩
    · rw [if_neg hd]
      have hd2 : env.dbRaises = false := by
        revert hd
        cases env.dbRaises <;> simp
      unfold update_last_refresh_time_in_db
      by_cases hmr : env.markerRaises = true
      · rw [if_pos hmr]
        exact ⟨fun h => absurd h hd, fun hm => absurd hmk hm⟩
      · rw [if_neg hmr]
        have hmr2 : env.markerRaises = false := by
          revert hmr
          cases env.markerRaises <;> simp
        exact ⟨fun h => absurd h hd, fun _ => ⟨hd2, hmr2, rfl⟩⟩
  by_cases hc : cacheHit env st = true
  · unfold runPass
    rw [if_pos hc]
    exact hdb st rfl rfl _
  · have hnc : ¬(cacheHit env st = true) := hc
    unfold runPass
    rw [if_neg hnc]
    by_cases hurl : truthyStr env.apiUrl = true
    · rw [if_neg (by rw [hurl]; simp)]
      cases hf : env.fetch with
      | error m =>
        exact ⟨fun _ => ⟨rfl, rfl⟩, fun hm => absurd rfl hm⟩
      | ok jobs =>
        dsimp only
        by_cases hemp : jobs.isEmpty = true
        · rw [if_pos hemp]
          exact ⟨fun _ => ⟨rfl, rfl⟩, fun hm => absurd rfl hm⟩
        · rw [if_neg hemp]
          exact hdb
            { st with cacheData := some jobs, cacheLastFetched := some env.now,
                      has_error := false, last_error := none }
            rfl rfl jobs
    · rw [if_pos (by revert hurl; cases truthyStr env.apiUrl <;> simp)]
      exact ⟨fun _ => ⟨rfl, rfl⟩, fun hm => absurd rfl hm⟩

/-- C3 witness: a raising transaction at instant 50 keeps ledger and marker
of the empty state. -/
theorem pass_atomic_commit_witness :
    (runPass envRaise st0).1.ledger = st0.ledger ∧
    (runPass envRaise st0).1.marker = st0.marker :=
  (pass_atomic_commit envRaise st0).1 rfl

/-- C10: a successful fetch that returns an empty job list makes the pass
return before the database phase: ledger rows, the autoincrement counter,
the open-incident set and the marker are all unchanged — in particular no
stale open incident is grace-period-resolved. -/
theorem empty_payload_no_mutation (env : PassEnv) (st : AppState)
    (hmiss : cacheHit env st = false)
    (hurl : truthyStr env.apiUrl = true)
    (hok : env.fetch = Except.ok []) :
    (runPass env st).1.ledger = st.ledger ∧
    (runPass env st).1.nextId = st.nextId ∧
    openIncidents (runPass env st).1.ledger = openIncidents st.ledger ∧
    (runPass env st).1.marker = st.marker := by
  unfold runPass
  rw [if_neg (by rw [hmiss]; exact Bool.false_ne_true),
    if_neg (by rw [hurl]; simp), hok]
  exact ⟨rfl, rfl, rfl, rfl⟩

/-- C10 witness: an empty payload at instant 100 against a state holding an
open incident for `j1` stale since instant 0. -/
theorem empty_payload_no_mutation_witness :
    (runPass envOkEmpty { st0 with ledger := [i0] }).1.ledger
      = ({ st0 with ledger := [i0] } : AppState).ledger ∧
    (runPass envOkEmpty { st0 with ledger := [i0] }).1.nextId
      = ({ st0 with ledger := [i0] } : AppState).nextId ∧
    openIncidents (runPass envOkEmpty { st0 with ledger := [i0] }).1.ledger
      = openIncidents ({ st0 with ledger := [i0] } : AppState).ledger ∧
    (runPass envOkEmpty { st0 with ledger := [i0] }).1.marker
      = ({ st0 with ledger := [i0] } : AppState).marker :=
  empty_payload_no_mutation envOkEmpty _ rfl rfl rfl

/-- C9 (counterexample): after the successful (empty) fetch of `envOkEmpty`
against a state with a stale error from instant 5, the error feed clears the
flag and the message but still reports the old error time, not none. -/
theorem fetch_success_keeps_last_error_time :
    (runPass envOkEmpty stErr).1.has_error = false ∧
    (runPass envOkEmpty stErr).1.last_error = none ∧
    (runPass envOkEmpty stErr).1.last_error_time = some 5 := by decide

/-- C9 (amended): a successful fetch clears the error flag and the last
error message; the last error time is left at its previous value. -/
theorem fetch_success_clears_flag_and_message (env : PassEnv) (st : AppState)
    (jobs : List JobData)
    (hmiss : cacheHit env st = false)
    (hurl : truthyStr env.apiUrl = true)
    (hok : env.fetch = Except.ok jobs) :
    get_api_error_state (runPass env st).1 =
      { has_error := false, last_error := none,
        last_error_time := st.last_error_time } := by
  unfold runPass
  rw [if_neg (by rw [hmiss]; exact Bool.false_ne_true),
    if_neg (by rw [hurl]; simp), hok]
  dsimp only
  by_cases hemp : jobs.isEmpty = true
  · rw [if_pos hemp]
    rfl
  · rw [if_neg hemp]
    unfold dbPhase
    by_cases hd : env.dbRaises = true
    · rw [if_pos hd]
      rfl
    · rw [if_neg hd]
      rfl

/-- C9 witness: the amended clearing behavior at the concrete stale-error
state. -/
theorem fetch_success_clears_flag_and_message_witness :
    get_api_error_state (runPass envOkEmpty stErr).1 =
      { has_error := false, last_error := none,
        last_error_time := stErr.last_error_time } :=
  fetch_success_clears_flag_and_message envOkEmpty stErr [] rfl rfl rfl

/-- C7 (counterexample): an empty payload cached 1 second ago is falsy under
the truthiness test of line 95, so the pass contacts the source again even
though a prior payload exists and the cache is fresh. -/
theorem fresh_empty_cached_payload_refetches :
    stEmptyCache.cacheData = some [] ∧
    stEmptyCache.cacheLastFetched = some 99 ∧
    envOkEmpty.now - 99 < CACHE_DURATION_SECONDS ∧
    (runPass envOkEmpty stEmptyCache).2 = true := by decide

/-- C7 (amended): if a prior non-empty payload exists and `now` minus the
last fetch instant is strictly below the 25-second freshness window, the
pass runs the database phase on the cached payload and does not contact the
source. -/
theorem cache_hit_uses_cached_payload (env : PassEnv) (st : AppState)
    (d : List JobData) (t : Nat)
    (hdata : st.cacheData = some d) (hne : d ≠ [])
    (ht : st.cacheLastFetched = some t)
    (hfresh : env.now - t < CACHE_DURATION_SECONDS) :
    runPass env st = (dbPhase env st d, false) := by
  have hde : d.isEmpty = false := by
    cases hd : d.isEmpty
    · rfl
    · exact absurd (List.isEmpty_iff.mp hd) hne
  have hcache : cacheHit env st = true := by
    unfold cacheHit
    rw [hdata, ht]
    simp [truthyList, hde, hfresh]
  unfold runPass
  rw [if_pos hcache, hdata]
  rfl

/-- C7 witness: a one-record payload cached 10 seconds ago is served from
the cache. -/
theorem cache_hit_uses_cached_payload_witness :
    runPass envOkEmpty stCache = (dbPhase envOkEmpty stCache [jobC], false) :=
  cache_hit_uses_cached_payload envOkEmpty stCache [jobC] 90 rfl
    (by decide) rfl (by decide)

end FIC

namespace FIC

/-! ### Claim theorems on single payload records -/

/-- C6: a payload record with an active status whose external job id has an
open incident updates, on every ledger row, at most the status (and the
status only when the snapshot status differs), the log reference, and the
last-upstream-update timestamp; row id, external id, name, priority,
first-detected, responded, resolved, responder and resolution fields are
unchanged, rows outside the open set of the id are untouched whole, and no row is
inserted. -/
theorem active_update_frame (now : Nat) (snap : List (String × String))
    (ledger : List Incident) (nid : Nat) (seen : List String) (j : JobData)
    (s : String)
    (hvalid : validJob j = true)
    (hactive : ACTIVE_STATUSES.contains (jobStatus j) = true)
    (hsnap : snapLookup snap (jobId j) = some s) :
    (processJob now snap (ledger, nid, seen) j).1.length = ledger.length ∧
    (processJob now snap (ledger, nid, seen) j).2.1 = nid ∧
    ∀ idx r, ledger.get? idx = some r →
      ∃ r2, (processJob now snap (ledger, nid, seen) j).1.get? idx = some r2 ∧
        r2.rowId = r.rowId ∧ r2.job_api_id = r.job_api_id ∧
        r2.job_name = r.job_name ∧ r2.priority = r.priority ∧
        r2.first_detected_at = r.first_detected_at ∧
        r2.responded_at = r.responded_at ∧ r2.resolved_at = r.resolved_at ∧
        r2.assigned_to = r.assigned_to ∧
        r2.resolution_notes = r.resolution_notes ∧
        (isOpenFor (jobId j) r = false → r2 = r) ∧
        (isOpenFor (jobId j) r = true →
          r2.log_url = j.log_url ∧ r2.last_api_update = some now ∧
          (s = jobStatus j → r2.status = r.status) ∧
          (s ≠ jobStatus j → r2.status = jobStatus j)) := by
  rw [processJob_active_hit now snap ledger nid seen j s hvalid hactive hsnap]
  by_cases hst : s ≠ jobStatus j
  · rw [if_pos hst]
    refine ⟨by simp [updOpenRows], rfl, ?_⟩
    intro idx r hr
    rw [updOpenRows_get _ _ _ _ _ hr]
    by_cases ho : isOpenFor (jobId j) r = true
    · rw [if_pos ho]
      exact ⟨_, rfl, rfl, rfl, rfl, rfl, rfl, rfl, rfl, rfl, rfl,
        fun hfalse => absurd (hfalse ▸ ho) Bool.false_ne_true,
        fun _ => ⟨rfl, rfl, fun hs => absurd hs hst, fun _ => rfl⟩⟩
    · rw [if_neg ho]
      exact ⟨r, rfl, rfl, rfl, rfl, rfl, rfl, rfl, rfl, rfl, rfl,
        fun _ => rfl, fun htrue => absurd htrue ho⟩
  · rw [if_neg hst]
    refine ⟨by simp [updOpenRows], rfl, ?_⟩
    intro idx r hr
    rw [updOpenRows_get _ _ _ _ _ hr]
    by_cases ho : isOpenFor (jobId j) r = true
    · rw [if_pos ho]
      exact ⟨_, rfl, rfl, rfl, rfl, rfl, rfl, rfl, rfl, rfl, rfl,
        fun hfalse => absurd (hfalse ▸ ho) Bool.false_ne_true,
        fun _ => ⟨rfl, rfl, fun _ => rfl, fun hs => absurd hs hst⟩⟩
    · rw [if_neg ho]
      exact ⟨r, rfl, rfl, rfl, rfl, rfl, rfl, rfl, rfl, rfl, rfl,
        fun _ => rfl, fun htrue => absurd htrue ho⟩

/-- C6 witness: `j1` reported ERROR against the open CRITICAL incident `i0`:
the updated row keeps every triage field of `i0`. -/
theorem active_update_frame_witness :
    ∃ r2, (processJob 100 (activeSnapshot [i0]) ([i0], 2, []) jobE).1.get? 0
        = some r2 ∧
      r2.rowId = i0.rowId ∧ r2.job_api_id = i0.job_api_id ∧
      r2.job_name = i0.job_name ∧ r2.priority = i0.priority ∧
      r2.first_detected_at = i0.first_detected_at ∧
      r2.responded_at = i0.responded_at ∧ r2.resolved_at = i0.resolved_at ∧
      r2.assigned_to = i0.assigned_to ∧
      r2.resolution_notes = i0.resolution_notes ∧
      (isOpenFor (jobId jobE) i0 = false → r2 = i0) ∧
      (isOpenFor (jobId jobE) i0 = true →
        r2.log_url = jobE.log_url ∧ r2.last_api_update = some 100 ∧
        ("CRITICAL" = jobStatus jobE → r2.status = i0.status) ∧
        ("CRITICAL" ≠ jobStatus jobE → r2.status = jobStatus jobE)) :=
  (active_update_frame 100 (activeSnapshot [i0]) [i0] 2 [] jobE "CRITICAL"
    (by decide) (by decide) (by decide)).2.2 0 i0 rfl

/-- C5 (counterexample): the grace-period path resolves the never-responded
incident `i0` at instant 200 but leaves its responded timestamp null, so a
resolved row with a null responded timestamp exists, against the claim. -/
theorem grace_resolution_leaves_responded_null :
    i0.responded_at = none ∧
    (processPayload 200 [jobOther] [i0] 2).1
      = [{ i0 with resolved_at := some 200 }] := by decide

/-- C5 (amended): a resolution driven by an inactive upstream status (OK or
LOG) always sets the responded timestamp to its pre-existing value or, when
null, to the first-detected timestamp of the incident — in either case non-null;
a grace-period resolution, by contrast, leaves the responded
timestamp of every row exactly as it was (so it can stay null). -/
theorem resolution_responded_amended (now : Nat) (snap : List (String × String))
    (ledger : List Incident) (nid : Nat) (seen : List String) (j : JobData)
    (s : String)
    (hvalid : validJob j = true)
    (hinactive : INACTIVE_STATUSES.contains (jobStatus j) = true)
    (hsnap : snapLookup snap (jobId j) = some s) :
    (∀ idx r, ledger.get? idx = some r → isOpenFor (jobId j) r = true →
      (processJob now snap (ledger, nid, seen) j).1.get? idx =
        some { r with status := jobStatus j,
                      responded_at := some (r.responded_at.getD r.first_detected_at),
                      resolved_at := some now, last_api_update := some now }) ∧
    (∀ sn l k idx r, l.get? idx = (some r : Option Incident) →
      ∃ r2, (graceStep now sn l k).get? idx = some r2 ∧
        r2.responded_at = r.responded_at) := by
  constructor
  · intro idx r hr ho
    rw [processJob_inactive_hit now snap ledger nid seen j s hvalid hinactive hsnap]
    rw [updOpenRows_get _ _ _ _ _ hr, if_pos ho]
    cases hra : r.responded_at with
    | none => rfl
    | some x => rfl
  · intro sn l k idx r hr
    rcases graceStep_get now sn l k idx r hr with h1 | h1
    · exact ⟨r, h1, rfl⟩
    · exact ⟨_, h1, rfl⟩

/-- C5 witness: `j1` reported OK against the open, never-responded incident
`i0`: the responded timestamp of the resolved row is backfilled to first-detected
(instant 0), non-null. -/
theorem resolution_responded_amended_witness :
    (processJob 200 (activeSnapshot [i0]) ([i0], 2, []) jobOK).1.get? 0 =
      some { i0 with status := jobStatus jobOK,
                     responded_at := some (i0.responded_at.getD i0.first_detected_at),
                     resolved_at := some 200, last_api_update := some 200 } :=
  (resolution_responded_amended 200 (activeSnapshot [i0]) [i0] 2 [] jobOK
    "CRITICAL" (by decide) (by decide) (by decide)).1 0 i0 rfl (by decide)

/-- C8 (counterexample): `j1` reports the unrecognized status "UNKNOWN"
while an open incident for `j1` exists; the pass leaves the row exactly as
it was — open — instead of resolving it as the inactive case would. -/
theorem unknown_status_keeps_incident_open :
    i0.resolved_at = none ∧
    (processPayload 200 [jobUnknown] [i0] 2).1 = [i0] := by decide

/-- C8 (amended): a valid payload record whose status is outside both the
active and the inactive set changes nothing in the ledger and inserts
nothing; its external id is still marked as seen, so an open incident for
that id is also not grace-period-resolved in the same pass. -/
theorem unknown_status_noop (now : Nat) (snap : List (String × String))
    (ledger : List Incident) (nid : Nat) (seen : List String) (j : JobData)
    (hvalid : validJob j = true)
    (hact : ACTIVE_STATUSES.contains (jobStatus j) = false)
    (hinact : INACTIVE_STATUSES.contains (jobStatus j) = false) :
    processJob now snap (ledger, nid, seen) j =
      (ledger, nid,
       if seen.contains (jobId j) then seen else seen ++ [jobId j]) ∧
    ∀ l : List Incident,
      graceStep now (processJob now snap (ledger, nid, seen) j).2.2 l (jobId j)
        = l := by
  have heq : processJob now snap (ledger, nid, seen) j =
      (ledger, nid,
       if seen.contains (jobId j) then seen else seen ++ [jobId j]) := by
    unfold processJob
    simp only [hvalid, Bool.not_true, Bool.false_eq_true, if_false]
    rw [if_neg (by rw [hact]; exact Bool.false_ne_true),
      if_neg (by rw [hinact]; exact Bool.false_ne_true)]
  refine ⟨heq, ?_⟩
  intro l
  rw [heq]
  have hcont : (if seen.contains (jobId j) then seen
      else seen ++ [jobId j]).contains (jobId j) = true := by
    by_cases hc : seen.contains (jobId j) = true
    · rw [if_pos hc]
      exact hc
    · rw [if_neg hc]
      exact List.elem_eq_true_of_mem
        (List.mem_append_right _ (List.mem_singleton_self _))
  unfold graceStep
  rw [if_pos hcont]

/-- C8 witness: the UNKNOWN record against the open incident `i0` leaves the
ledger alone and marks `j1` seen, blocking the grace step. -/
theorem unknown_status_noop_witness :
    processJob 200 (activeSnapshot [i0]) ([i0], 2, []) jobUnknown
      = ([i0], 2,
         if List.contains [] (jobId jobUnknown) then []
         else [] ++ [jobId jobUnknown]) ∧
    ∀ l : List Incident,
      graceStep 200 (processJob 200 (activeSnapshot [i0]) ([i0], 2, [])
        jobUnknown).2.2 l (jobId jobUnknown) = l :=
  unknown_status_noop 200 (activeSnapshot [i0]) [i0] 2 [] jobUnknown
    (by decide) (by decide) (by decide)

/-- C4 witness: the stale open incident `i0` (last seen at instant 0) is
absent from the payload at instant 200, 80 seconds past the grace period:
it is resolved in place with its status kept. -/
theorem grace_period_resolution_witness :
    openRowsFor (processPayload 200 [jobOther] [i0] 2).1 i0.job_api_id = [] ∧
    ({ i0 with resolved_at := some 200 } : Incident)
      ∈ (processPayload 200 [jobOther] [i0] 2).1 :=
  (grace_period_resolution 200 [jobOther] [i0] 2 i0 0 (by decide) rfl
    (by decide)).1 (by decide)

end FIC
